import Mathlib

/-!
Shallow embedding of two utility modules of the super-gradients repository:

* `src/super_gradients/training/utils/ema_decay_schedules.py` — the EMA decay
  schedule strategies `ConstantDecay`, `ThresholdDecay`, `ExpDecay`.
* `src/super_gradients/conversion/onnx/utils.py` — the ONNX graph helpers
  `append_graphs` and `iteratively_infer_shapes`.

Python numbers (ints and the float results of true division) are embedded as
`ℤ` and `ℚ`.  Python's true division `/`, which raises `ZeroDivisionError`
on a zero divisor, is embedded as `pydiv` returning `Except`.  The external
collaborators (`math.exp`, onnx-graphsurgeon's `cleanup`/`toposort`/
`fold_constants`, and onnx shape inference) are parameters of the embedded
functions: the embedding fixes only the code of this repository, not the
libraries it calls.
-/

/-! ## EMA decay schedules (ema_decay_schedules.py) -/

/-- Python true division: `a / b` raises `ZeroDivisionError` when `b == 0`,
otherwise produces the exact quotient. -/
def pydiv (a b : ℚ) : Except String ℚ :=
  if b = 0 then Except.error ("ZeroDivisionError: division by zero")
  else Except.ok (a / b)

/-- `ConstantDecay.__call__(self, decay, step, total_steps)`:
`return decay`. -/
def ConstantDecay (decay : ℚ) (step : ℤ) (total_steps : ℤ) : ℚ :=
  decay

/-- `ThresholdDecay.__call__(self, decay, step, total_steps)`:
`return min(decay, (1 + step) / (10 + step))`. -/
def ThresholdDecay (decay : ℚ) (step : ℤ) (total_steps : ℤ) : Except String ℚ :=
  (pydiv (1 + (step : ℚ)) (10 + (step : ℚ))).map (fun r => min decay r)

/-- `ExpDecay.__call__(self, decay, step, total_steps)`:
`x = step / total_steps; return decay * (1 - math.exp(-x * self.beta))`.
`exp` stands for the external `math.exp`; `beta` is the constructor
parameter `self.beta`. -/
def ExpDecay (exp : ℚ → ℚ) (beta : ℚ) (decay : ℚ) (step : ℤ) (total_steps : ℤ) :
    Except String ℚ :=
  (pydiv (step : ℚ) (total_steps : ℚ)).map (fun x => decay * (1 - exp (-x * beta)))

/-! ### Float-precision model of the division in ThresholdDecay

`pydiv` returns the exact rational quotient, but Python's int/int true
division actually returns the IEEE-754 binary64 (double) correct
rounding of that quotient, with round-half-to-even.  The exact model is
adequate for the code's own expressions and its exactly-representable
instances, but not for strict bounds: near 1 the rounding can land
exactly on 1.0.  The following definitions embed the division at
binary64 precision with integer-only arithmetic (so the kernel can
evaluate them).  The model covers operands of fewer than about 1100
bits and ignores overflow/underflow and subnormals, none of which the
threshold schedule's division can reach for such operands. -/

/-- Floor of the base-2 logarithm of a natural number, with explicit
recursion fuel so that the kernel can evaluate it; `natLog2 fuel n` is
the floor of log2 of `n` whenever `1 ≤ n < 2 ^ fuel`. -/
def natLog2 : ℕ → ℕ → ℕ
  | 0, _ => 0
  | fuel + 1, n => if n ≤ 1 then 0 else natLog2 fuel (n / 2) + 1

/-- Mantissa and exponent of the binary64 rounding (round half to even)
of the exact quotient `a / b` for natural operands with `b > 0`: the
rounded value is `m * 2 ^ (e - 52)`, where `e` is the floor of log2 of
`a / b` and `m` is the nearest integer (ties to even) to
`(a / b) * 2 ^ (52 - e)`, which lies in `[2^52, 2^53]`.  For `a = 0`
the mantissa is 0. -/
def floatDivRep (a b : ℕ) : ℕ × ℤ :=
  let La := natLog2 1100 a
  let Lb := natLog2 1100 b
  let e : ℤ := if b * 2 ^ La ≤ a * 2 ^ Lb then (La : ℤ) - Lb else (La : ℤ) - Lb - 1
  let s : ℤ := 52 - e
  let n1 := if 0 ≤ s then a * 2 ^ s.toNat else a
  let d1 := if 0 ≤ s then b else b * 2 ^ (-s).toNat
  let m := n1 / d1
  let r := n1 % d1
  let m1 := if 2 * r < d1 then m else if d1 < 2 * r then m + 1
    else if m % 2 = 0 then m else m + 1
  (m1, e)

/-- The rational value denoted by a mantissa/exponent pair. -/
def qOfRep : ℕ × ℤ → ℚ
  | (m, e) =>
    if 0 ≤ e - 52 then ((m * 2 ^ (e - 52).toNat : ℕ) : ℚ)
    else (m : ℚ) / ((2 ^ (52 - e).toNat : ℕ) : ℚ)

/-- binary64 rounding of the quotient `a / b` of naturals, as a rational. -/
def floatDivPos (a b : ℕ) : ℚ := qOfRep (floatDivRep a b)

/-- Python float true division of two ints at binary64 precision; the
sign is handled by symmetry of round-half-to-even. -/
def floatDivInt (a b : ℤ) : ℚ :=
  if 0 ≤ a * b then floatDivPos a.natAbs b.natAbs else -(floatDivPos a.natAbs b.natAbs)

/-- Python true division of two ints with binary64 rounding:
`ZeroDivisionError` on a zero divisor, otherwise the correctly rounded
double value. -/
def pydivF (a b : ℤ) : Except String ℚ :=
  if b = 0 then Except.error ("ZeroDivisionError: division by zero")
  else Except.ok (floatDivInt a b)

/-- `ThresholdDecay.__call__` with its division `(1 + step) / (10 + step)`
embedded at binary64 precision — the precision at which Python actually
evaluates it. -/
def ThresholdDecayF (decay : ℚ) (step : ℤ) (total_steps : ℤ) : Except String ℚ :=
  (pydivF (1 + step) (10 + step)).map (fun r => min decay r)

/-! ## ONNX graph data model (onnx-graphsurgeon primitives) -/

namespace Onnx

/-- A named tensor (gs.Tensor); nodes reference tensors by value here. -/
structure Tensor where
  name : String
deriving DecidableEq, Repr

/-- A graph node (gs.Node): operator type, name, input and output tensors. -/
structure Node where
  op : String
  name : String
  inputs : List Tensor
  outputs : List Tensor
deriving DecidableEq, Repr

/-- A computation graph (gs.Graph): ordered nodes, declared inputs and
declared outputs. -/
structure Graph where
  nodes : List Node
  inputs : List Tensor
  outputs : List Tensor
deriving DecidableEq, Repr

/-! ## append_graphs -/

/-- The identity bridge node built for one positional pair
`(out, inp) = (graph1.outputs[i], graph2.inputs[i])`:
`gs.Node(op="Identity", name=f"Identity_<out.name>_<inp.name>",
inputs=[out], outputs=[inp])`. -/
def mkBridge (oi : Tensor × Tensor) : Node :=
  { op := ("Identity")
    name := ("Identity_") ++ oi.1.name ++ ("_") ++ oi.2.name
    inputs := [oi.1]
    outputs := [oi.2] }

/-- The bridge nodes appended by the stitching loop
`for out, inp in zip(graph1.outputs, graph2.inputs)`. -/
def bridgeNodes (g1 g2 : Graph) : List Node :=
  (g1.outputs.zip g2.inputs).map mkBridge

/-- The merged graph just before the final `merged_graph.toposort()` call:
graph2's nodes appended in original order, then one identity bridge per
positional output/input pair; declared outputs replaced by graph2's
outputs; graph1's declared inputs untouched. -/
def stitched (g1 g2 : Graph) : Graph :=
  { nodes := g1.nodes ++ g2.nodes ++ bridgeNodes g1 g2
    inputs := g1.inputs
    outputs := g2.outputs }

/-- Result of `append_graphs`, carrying the post-call states of both
argument graphs so that in-place mutation (or its absence on the error
path) is observable: `ok ret s1 s2` means the call returned `ret` with
`graph1` in state `s1` and `graph2` in state `s2`; `raise msg s1 s2`
means a `ValueError` with message `msg` escaped with the graphs in
states `s1`, `s2`. -/
inductive AppendResult where
  | ok (ret : Graph) (s1 : Graph) (s2 : Graph)
  | raise (msg : String) (s1 : Graph) (s2 : Graph)
deriving DecidableEq, Repr

/-- `append_graphs(graph1, graph2)`.  The final `merged_graph.toposort()`
is the external gs.Graph.toposort, embedded as the parameter `ts`
(it reorders `nodes` and returns the same graph object). -/
def append_graphs (ts : Graph → Graph) (g1 g2 : Graph) : AppendResult :=
  if g1.outputs.length ≠ g2.inputs.length then
    AppendResult.raise
      (("Number of outputs (") ++ toString g1.outputs.length ++
        (") does not match number of inputs (") ++ toString g2.inputs.length ++ (")"))
      g1 g2
  else
    let merged := ts (stitched g1 g2)
    AppendResult.ok merged merged g2

/-! ## iteratively_infer_shapes

The Python function receives the caller's graph object in the local
variable `graph`.  In-place library calls (`cleanup().toposort()`,
`fold_constants`) mutate whatever object the local currently refers to;
the statement `graph = gs.import_onnx(model)` rebinds the local to a
fresh object.  The embedding therefore threads a state `RState` holding
the value the local refers to (`loc`), the current state of the caller's
object (`orig`), whether the two are still the same object (`aliased`),
and the messages sent to the logger (`log`). -/

/-- Logging level used by the embedded logger calls. -/
inductive Level where
  | debug
  | error
deriving DecidableEq, Repr

/-- State of one execution of `iteratively_infer_shapes`. -/
structure RState where
  loc : Graph
  orig : Graph
  aliased : Bool
  log : List (Level × String)
deriving DecidableEq, Repr

/-- Append one logger message. -/
def logMsg (s : RState) (lvl : Level) (msg : String) : RState :=
  { s with log := s.log ++ [(lvl, msg)] }

/-- An in-place mutation of the object the local `graph` refers to: the
caller's object changes too exactly when the local still aliases it. -/
def writeInPlace (s : RState) (g : Graph) : RState :=
  { s with loc := g, orig := if s.aliased then g else s.orig }

/-- Initial state: the local aliases the caller's graph, and the function
has logged its opening debug line. -/
def initState (g : Graph) : RState :=
  { loc := g, orig := g, aliased := true
    log := [(Level.debug, ("Performing shape inference & folding."))] }

/-- Outcome of one external `graph.fold_constants(fold_shapes=True)` call:
in-place success, a raised `TypeError`, or any other raised exception. -/
inductive FoldOutcome where
  | ok (g : Graph)
  | typeErr (msg : String)
  | err (msg : String)
deriving DecidableEq, Repr

/-- Which Python exception class escaped the refiner. -/
inductive RaisedKind where
  | typeError
  | other
deriving DecidableEq, Repr

/-- Result of one iteration of the `for _ in range(3)` body:
`ok s stop` with `stop = true` when the `break` is taken, or `raise`
when an exception escapes the body. -/
inductive PassResult where
  | ok (s : RState) (stop : Bool)
  | raise (k : RaisedKind) (msg : String) (s : RState)
deriving DecidableEq, Repr

/-- The `try: model = gs.export_onnx(graph); model =
shape_inference.infer_shapes(model); graph = gs.import_onnx(model)
except Exception as e: logger.debug(...)` block.  The external
export/infer/import pipeline is the parameter `i`: `Except.ok g` is a
successful reimport producing the fresh graph `g`, `Except.error e` is
any exception with message `e`.  On success only the local is rebound;
on failure the exception is swallowed after a debug log. -/
def inferStep (i : Graph → Except String Graph) (s : RState) : RState :=
  match i s.loc with
  | Except.ok g => { s with loc := g, aliased := false }
  | Except.error e =>
      logMsg s Level.debug (("Shape inference could not be performed at this time:\n") ++ e)

/-- The logger.error message of the `except TypeError` handler. -/
def foldTypeErrMsg (e : String) : String :=
  ("This version of ONNX GraphSurgeon does not support folding shapes, ") ++
    ("please upgrade your onnx_graphsurgeon module. Error:\n") ++ e

/-- One iteration of the loop body of `iteratively_infer_shapes`:
record `count_before`, run `graph.cleanup().toposort()` (the external
in-place call `c`), attempt shape inference, then `fold_constants`
(the external call `f`): a `TypeError` is logged at error level and
re-raised, any other exception propagates uncaught, and on success the
loop breaks exactly when the node count is unchanged (otherwise a debug
line reports the folded count). -/
def refinePass (c : Graph → Graph) (i : Graph → Except String Graph)
    (f : Graph → FoldOutcome) (s : RState) : PassResult :=
  let count_before := s.loc.nodes.length
  let s2 := inferStep i (writeInPlace s (c s.loc))
  match f s2.loc with
  | FoldOutcome.ok g =>
      let s3 := writeInPlace s2 g
      if count_before = s3.loc.nodes.length then
        PassResult.ok s3 true
      else
        PassResult.ok
          (logMsg s3 Level.debug
            (("Folded ") ++ toString ((count_before : ℤ) - (s3.loc.nodes.length : ℤ)) ++
              (" constants.")))
          false
  | FoldOutcome.typeErr e =>
      PassResult.raise RaisedKind.typeError e (logMsg s2 Level.error (foldTypeErrMsg e))
  | FoldOutcome.err e => PassResult.raise RaisedKind.other e s2

/-- The execution state carried by a pass result (post-pass state on
`ok`, state at raise time on `raise`). -/
def PassResult.state : PassResult → RState
  | PassResult.ok s _ => s
  | PassResult.raise _ _ s => s

/-- Caller-observable outcome of `iteratively_infer_shapes`.  The Python
function is annotated `-> None` and has no return statement, so `done`
carries no returned graph value: the caller sees only the final state of
its own graph object (`s.orig`) and the log.  `passes` counts executed
loop iterations. -/
inductive LoopResult where
  | done (s : RState) (passes : ℕ)
  | raised (k : RaisedKind) (msg : String) (s : RState) (passes : ℕ)
deriving DecidableEq, Repr

/-- Number of loop iterations that were executed (fully or partially). -/
def LoopResult.passes : LoopResult → ℕ
  | LoopResult.done _ n => n
  | LoopResult.raised _ _ _ n => n

/-- Final state of the caller's graph object. -/
def LoopResult.origGraph : LoopResult → Graph
  | LoopResult.done s _ => s.orig
  | LoopResult.raised _ _ s _ => s.orig

/-- Final value of the local working-graph variable (a ghost observation:
the Python caller has no access to it). -/
def LoopResult.workGraph : LoopResult → Graph
  | LoopResult.done s _ => s.loc
  | LoopResult.raised _ _ s _ => s.loc

/-- The `for _ in range(fuel)` loop, threading the iteration count. -/
def refineLoop (c : Graph → Graph) (i : Graph → Except String Graph)
    (f : Graph → FoldOutcome) : ℕ → RState → ℕ → LoopResult
  | 0, s, n => LoopResult.done s n
  | fuel + 1, s, n =>
      match refinePass c i f s with
      | PassResult.raise k m s' => LoopResult.raised k m s' (n + 1)
      | PassResult.ok s' true => LoopResult.done s' (n + 1)
      | PassResult.ok s' false => refineLoop c i f fuel s' (n + 1)

/-- `iteratively_infer_shapes(graph)`: three-pass refinement loop over the
caller's graph `g`, with the external collaborators `c` (cleanup +
toposort), `i` (export / shape-inference / reimport) and `f`
(fold_constants). -/
def iteratively_infer_shapes (c : Graph → Graph) (i : Graph → Except String Graph)
    (f : Graph → FoldOutcome) (g : Graph) : LoopResult :=
  refineLoop c i f 3 (initState g) 0

end Onnx

open Onnx

/-! ## Claims about append_graphs -/

/-- C1: when `len(graph1.outputs) == len(graph2.inputs)`, `append_graphs`
returns the merged graph, which is the post-call state of `graph1`
(in-place mutation); its node count is
`len(graph1.nodes) + len(graph2.nodes) + len(graph1.outputs)`; before the
final toposort the node list is graph1's nodes, then graph2's nodes in
original order, then one `Identity_<outName>_<inName>` bridge node per
positional output/input pair wiring the output tensor as its single input
and the input tensor as its single output; and the declared outputs are
exactly graph2's original outputs.  The external `toposort` (`ts`) is
assumed to permute the node list and leave the declared outputs alone. -/
theorem append_graphs_spec (ts : Graph → Graph) (g1 g2 : Graph)
    (hlen : g1.outputs.length = g2.inputs.length)
    (hts_nodes : ∀ g, ((ts g).nodes).Perm g.nodes)
    (hts_out : ∀ g, (ts g).outputs = g.outputs) :
    append_graphs ts g1 g2 =
      AppendResult.ok (ts (stitched g1 g2)) (ts (stitched g1 g2)) g2 ∧
    (ts (stitched g1 g2)).nodes.length =
      g1.nodes.length + g2.nodes.length + g1.outputs.length ∧
    (ts (stitched g1 g2)).outputs = g2.outputs ∧
    (stitched g1 g2).nodes = g1.nodes ++ g2.nodes ++ bridgeNodes g1 g2 ∧
    bridgeNodes g1 g2 = (g1.outputs.zip g2.inputs).map mkBridge ∧
    (∀ t u : Tensor, mkBridge (t, u) =
      { op := ("Identity"), name := ("Identity_") ++ t.name ++ ("_") ++ u.name
        inputs := [t], outputs := [u] }) := by
  have hb : (bridgeNodes g1 g2).length = g1.outputs.length := by
    simp [bridgeNodes, List.length_zip, hlen]
  refine ⟨?_, ?_, ?_, rfl, rfl, fun t u => rfl⟩
  · simp [append_graphs, hlen]
  · rw [(hts_nodes (stitched g1 g2)).length_eq]
    simp [stitched, hb]
    ring
  · rw [hts_out, stitched]

/-- Witness for `append_graphs_spec`: graph A has one node and one output
tensor, graph B has one node, one input and one output tensor; toposort
instantiated with the identity function. -/
theorem append_graphs_spec_witness :
    (Graph.mk [Node.mk ("OpA") ("a") [] [Tensor.mk ("x")]] [] [Tensor.mk ("x")]).outputs.length =
      (Graph.mk [Node.mk ("OpB") ("b") [Tensor.mk ("y")] []] [Tensor.mk ("y")] []).inputs.length ∧
    append_graphs id
        (Graph.mk [Node.mk ("OpA") ("a") [] [Tensor.mk ("x")]] [] [Tensor.mk ("x")])
        (Graph.mk [Node.mk ("OpB") ("b") [Tensor.mk ("y")] []] [Tensor.mk ("y")] []) =
      AppendResult.ok
        (id (stitched
          (Graph.mk [Node.mk ("OpA") ("a") [] [Tensor.mk ("x")]] [] [Tensor.mk ("x")])
          (Graph.mk [Node.mk ("OpB") ("b") [Tensor.mk ("y")] []] [Tensor.mk ("y")] [])))
        (id (stitched
          (Graph.mk [Node.mk ("OpA") ("a") [] [Tensor.mk ("x")]] [] [Tensor.mk ("x")])
          (Graph.mk [Node.mk ("OpB") ("b") [Tensor.mk ("y")] []] [Tensor.mk ("y")] [])))
        (Graph.mk [Node.mk ("OpB") ("b") [Tensor.mk ("y")] []] [Tensor.mk ("y")] []) :=
  ⟨rfl,
    (append_graphs_spec id
      (Graph.mk [Node.mk ("OpA") ("a") [] [Tensor.mk ("x")]] [] [Tensor.mk ("x")])
      (Graph.mk [Node.mk ("OpB") ("b") [Tensor.mk ("y")] []] [Tensor.mk ("y")] [])
      rfl (fun g => List.Perm.refl _) (fun g => rfl)).1⟩

/-- C2: when `len(graph1.outputs) != len(graph2.inputs)`, `append_graphs`
raises the cardinality-mismatch `ValueError` and both graphs are left in
their pre-call states: the count check is the first statement, so the
error path performs no mutation. -/
theorem append_graphs_mismatch_atomic (ts : Graph → Graph) (g1 g2 : Graph)
    (h : g1.outputs.length ≠ g2.inputs.length) :
    append_graphs ts g1 g2 =
      AppendResult.raise
        (("Number of outputs (") ++ toString g1.outputs.length ++
          (") does not match number of inputs (") ++ toString g2.inputs.length ++ (")"))
        g1 g2 := by
  simp [append_graphs, h]

/-- Witness for `append_graphs_mismatch_atomic`: graph A declares one
output, graph B declares no inputs. -/
theorem append_graphs_mismatch_atomic_witness :
    (Graph.mk [] [] [Tensor.mk ("x")]).outputs.length ≠ (Graph.mk [] [] []).inputs.length ∧
    append_graphs id (Graph.mk [] [] [Tensor.mk ("x")]) (Graph.mk [] [] []) =
      AppendResult.raise
        (("Number of outputs (") ++ toString (Graph.mk [] [] [Tensor.mk ("x")]).outputs.length ++
          (") does not match number of inputs (") ++
          toString (Graph.mk [] [] []).inputs.length ++ (")"))
        (Graph.mk [] [] [Tensor.mk ("x")]) (Graph.mk [] [] []) :=
  ⟨by decide,
    append_graphs_mismatch_atomic id (Graph.mk [] [] [Tensor.mk ("x")]) (Graph.mk [] [] [])
      (by decide)⟩

/-! ## Claims about the EMA decay schedules -/

/-- C7: for every decay, step, beta and every `total_steps ≠ 0`, the exp
schedule returns `decay * (1 - exp(-(step/total_steps) * beta))`; for
`total_steps = 0` the unguarded division `step / total_steps` fails with
a division-by-zero error rather than returning a value. -/
theorem exp_decay_spec (exp : ℚ → ℚ) (beta decay : ℚ) (step total_steps : ℤ) :
    (total_steps ≠ 0 →
      ExpDecay exp beta decay step total_steps =
        Except.ok (decay * (1 - exp (-((step : ℚ) / (total_steps : ℚ)) * beta)))) ∧
    (total_steps = 0 →
      ExpDecay exp beta decay step total_steps =
        Except.error ("ZeroDivisionError: division by zero")) := by
  constructor
  · intro h
    have h' : (total_steps : ℚ) ≠ 0 := Int.cast_ne_zero.mpr h
    simp [ExpDecay, pydiv, h', Except.map]
  · intro h
    subst h
    simp [ExpDecay, pydiv, Except.map]

/-- Witness for `exp_decay_spec` at `exp = id`, `beta = 1`, `decay = 1`,
`step = 0`, and `total_steps = 1` resp. `total_steps = 0`. -/
theorem exp_decay_spec_witness :
    ((1 : ℤ) ≠ 0 ∧
      ExpDecay id 1 1 0 1 = Except.ok (1 * (1 - id (-((0 : ℚ) / ((1 : ℤ) : ℚ)) * 1)))) ∧
    ((0 : ℤ) = 0 ∧
      ExpDecay id 1 1 0 0 = Except.error ("ZeroDivisionError: division by zero")) :=
  ⟨⟨by decide, (exp_decay_spec id 1 1 0 1).1 (by decide)⟩,
    ⟨rfl, (exp_decay_spec id 1 1 0 0).2 rfl⟩⟩

/-- C8 counterexample: at `step = -10` the threshold schedule's division
`(1 + step) / (10 + step)` divides by zero, so the call fails with
`ZeroDivisionError` instead of returning `min(decay, (1+step)/(10+step))`. -/
theorem threshold_decay_div_zero :
    ThresholdDecay (9/10) (-10) 100 = Except.error ("ZeroDivisionError: division by zero") := by
  norm_num [ThresholdDecay, pydiv, Except.map]

/-- C8 amended: for every decay, every `step ≠ -10`, and every
`total_steps`, the threshold schedule returns
`min(decay, (1+step)/(10+step))`; in particular
`threshold(0.9, 0, 100) = 0.1` and `threshold(0.9, 999, 100) = 0.9`;
and the constant schedule returns `decay` unchanged everywhere. -/
theorem threshold_constant_spec (decay : ℚ) (step total_steps : ℤ) (h : step ≠ -10) :
    ThresholdDecay decay step total_steps =
      Except.ok (min decay ((1 + (step : ℚ)) / (10 + (step : ℚ)))) ∧
    ThresholdDecay (9/10) 0 100 = Except.ok (1/10) ∧
    ThresholdDecay (9/10) 999 100 = Except.ok (9/10) ∧
    ConstantDecay decay step total_steps = decay := by
  have hne : (10 : ℚ) + (step : ℚ) ≠ 0 := by
    intro hz
    apply h
    have : ((10 + step : ℤ) : ℚ) = 0 := by push_cast; linarith
    have h10 : (10 : ℤ) + step = 0 := by exact_mod_cast this
    omega
  refine ⟨?_, ?_, ?_, rfl⟩
  · simp [ThresholdDecay, pydiv, hne, Except.map]
  · have h1 : min (9/10 : ℚ) (1/10) = 1/10 := by norm_num
    norm_num [ThresholdDecay, pydiv, Except.map, h1]
  · have h1 : ((1 : ℚ) + 999) / (10 + 999) = 1000/1009 := by norm_num
    have h2 : min (9/10 : ℚ) (1000/1009) = 9/10 := by
      rw [min_eq_left]; norm_num
    norm_num [ThresholdDecay, pydiv, Except.map, h1, h2]

/-- Witness for `threshold_constant_spec` at `decay = 1/2`, `step = 0`,
`total_steps = 5`. -/
theorem threshold_constant_spec_witness :
    (0 : ℤ) ≠ -10 ∧
      ThresholdDecay (1/2) 0 5 =
        Except.ok (min (1/2) ((1 + ((0 : ℤ) : ℚ)) / (10 + ((0 : ℤ) : ℚ)))) :=
  ⟨by decide, (threshold_constant_spec (1/2) 0 5 (by decide)).1⟩

/-- C10 counterexample: at binary64 precision — the precision at which
Python evaluates `(1 + step) / (10 + step)` — the division rounds to
exactly 1.0 at `step = 2 ^ 60`, so with `decay = 3/2` the threshold
schedule returns exactly 1, which is not strictly less than 1.  The
strict bound of the claim holds only of the exact rational quotient,
not of the program. -/
theorem threshold_float_reaches_one :
    ThresholdDecayF (3/2) (2 ^ 60) 100 = Except.ok 1 ∧ ¬ ((1 : ℚ) < 1) := by
  constructor
  · have hA : ((1 : ℤ) + 2 ^ 60).natAbs = (1 + 2 ^ 60 : ℕ) := by decide
    have hB : ((10 : ℤ) + 2 ^ 60).natAbs = (10 + 2 ^ 60 : ℕ) := by decide
    have hrep : floatDivRep (1 + 2 ^ 60) (10 + 2 ^ 60) = (2 ^ 53, -1) := by decide
    have hv : floatDivInt ((1 : ℤ) + 2 ^ 60) (10 + 2 ^ 60) = 1 := by
      rw [floatDivInt, if_pos (by decide), hA, hB]
      show qOfRep (floatDivRep (1 + 2 ^ 60) (10 + 2 ^ 60)) = 1
      rw [hrep]
      norm_num [qOfRep]
      rw [show ((53 : ℤ)).toNat = (53 : ℕ) from rfl]
      norm_num
    rw [ThresholdDecayF, pydivF, if_neg (by decide : ¬((10 : ℤ) + 2 ^ 60 = 0))]
    show Except.ok (min (3/2 : ℚ) (floatDivInt (1 + 2 ^ 60) (10 + 2 ^ 60))) = Except.ok 1
    rw [hv]
    norm_num
  · exact lt_irrefl 1

/-- C10 amended: for every decay, every `0 ≤ step ≤ step'`, and all
total-step arguments, the threshold schedule returns a value `r` with
`r ≤ decay` and `r ≤ 1` (the bound is attained by the program: with
binary64 division the ratio rounds to exactly 1.0 for sufficiently
large steps, so with `decay ≥ 1` the result is exactly 1), the value is
non-decreasing in the step, and the result is independent of the
total-steps argument. -/
theorem threshold_bounds_mono_indep (decay : ℚ) (step step' total_steps total_steps' : ℤ)
    (h0 : 0 ≤ step) (hle : step ≤ step') :
    (∃ r r',
      ThresholdDecay decay step total_steps = Except.ok r ∧
      ThresholdDecay decay step' total_steps = Except.ok r' ∧
      r ≤ decay ∧ r ≤ 1 ∧ r ≤ r') ∧
    ThresholdDecay decay step total_steps = ThresholdDecay decay step total_steps' := by
  have ha : (0 : ℚ) ≤ (step : ℚ) := by exact_mod_cast h0
  have ha' : (step : ℚ) ≤ (step' : ℚ) := by exact_mod_cast hle
  have hpos : (0 : ℚ) < 10 + (step : ℚ) := by linarith
  have hpos' : (0 : ℚ) < 10 + (step' : ℚ) := by linarith
  refine ⟨⟨min decay ((1 + (step : ℚ)) / (10 + (step : ℚ))),
    min decay ((1 + (step' : ℚ)) / (10 + (step' : ℚ))), ?_, ?_, min_le_left _ _, ?_, ?_⟩, rfl⟩
  · simp [ThresholdDecay, pydiv, ne_of_gt hpos, Except.map]
  · simp [ThresholdDecay, pydiv, ne_of_gt hpos', Except.map]
  · exact le_of_lt (lt_of_le_of_lt (min_le_right _ _) ((div_lt_one hpos).mpr (by linarith)))
  · refine min_le_min le_rfl ?_
    rw [div_le_div_iff₀ hpos hpos']
    nlinarith

/-- Witness for `threshold_bounds_mono_indep` at `decay = 1/2`,
`step = 0`, `step' = 3`, `total_steps = 1`, `total_steps' = 2`. -/
theorem threshold_bounds_mono_indep_witness :
    (0 : ℤ) ≤ 0 ∧ (0 : ℤ) ≤ 3 ∧
      ThresholdDecay (1/2) 0 1 = ThresholdDecay (1/2) 0 2 :=
  ⟨le_refl 0, by decide,
    (threshold_bounds_mono_indep (1/2) 0 3 1 2 (le_refl 0) (by decide)).2⟩

/-! ## Helper lemmas about the refinement loop -/

theorem writeInPlace_loc (s : RState) (g : Graph) : (writeInPlace s g).loc = g := rfl

theorem writeInPlace_aliased (s : RState) (g : Graph) :
    (writeInPlace s g).aliased = s.aliased := rfl

theorem writeInPlace_orig_false (s : RState) (g : Graph) (h : s.aliased = false) :
    (writeInPlace s g).orig = s.orig := by
  simp [writeInPlace, h]

theorem writeInPlace_orig_true (s : RState) (g : Graph) (h : s.aliased = true) :
    (writeInPlace s g).orig = g := by
  simp [writeInPlace, h]

theorem logMsg_loc (s : RState) (lvl : Level) (m : String) : (logMsg s lvl m).loc = s.loc := rfl

theorem logMsg_orig (s : RState) (lvl : Level) (m : String) : (logMsg s lvl m).orig = s.orig := rfl

theorem logMsg_aliased (s : RState) (lvl : Level) (m : String) :
    (logMsg s lvl m).aliased = s.aliased := rfl

theorem inferStep_orig (i : Graph → Except String Graph) (s : RState) :
    (inferStep i s).orig = s.orig := by
  cases hi : i s.loc <;> simp [inferStep, hi, logMsg]

theorem inferStep_aliased_false (i : Graph → Except String Graph) (s : RState)
    (h : s.aliased = false) : (inferStep i s).aliased = false := by
  cases hi : i s.loc <;> simp [inferStep, hi, logMsg, h]

theorem refinePass_state_unaliased (c : Graph → Graph) (i : Graph → Except String Graph)
    (f : Graph → FoldOutcome) (s : RState) (h : s.aliased = false) :
    ((refinePass c i f s).state).orig = s.orig ∧
    ((refinePass c i f s).state).aliased = false := by
  have h1 : (inferStep i (writeInPlace s (c s.loc))).orig = s.orig := by
    rw [inferStep_orig, writeInPlace_orig_false s (c s.loc) h]
  have h2 : (inferStep i (writeInPlace s (c s.loc))).aliased = false :=
    inferStep_aliased_false i _ (by rw [writeInPlace_aliased]; exact h)
  simp only [refinePass]
  split
  · split
    · exact ⟨by simp [PassResult.state, writeInPlace_orig_false _ _ h2, h1],
        by simp [PassResult.state, writeInPlace_aliased, h2]⟩
    · exact ⟨by simp [PassResult.state, logMsg_orig, writeInPlace_orig_false _ _ h2, h1],
        by simp [PassResult.state, logMsg_aliased, writeInPlace_aliased, h2]⟩
  · exact ⟨by simp [PassResult.state, logMsg_orig, h1],
      by simp [PassResult.state, logMsg_aliased, h2]⟩
  · exact ⟨by simp [PassResult.state, h1], by simp [PassResult.state, h2]⟩

theorem refineLoop_origGraph_unaliased (c : Graph → Graph) (i : Graph → Except String Graph)
    (f : Graph → FoldOutcome) :
    ∀ fuel s n, s.aliased = false → (refineLoop c i f fuel s n).origGraph = s.orig := by
  intro fuel
  induction fuel with
  | zero => intro s n h; rfl
  | succ fuel ih =>
      intro s n h
      have hps := refinePass_state_unaliased c i f s h
      simp only [refineLoop]
      cases hp : refinePass c i f s with
      | raise k m s1 =>
          rw [hp] at hps
          simpa [LoopResult.origGraph, PassResult.state] using hps.1
      | ok s1 stop =>
          rw [hp] at hps
          cases stop with
          | true => simpa [LoopResult.origGraph, PassResult.state] using hps.1
          | false =>
              have hrec := ih s1 (n + 1) (by simpa [PassResult.state] using hps.2)
              simp only [hrec]
              simpa [PassResult.state] using hps.1

theorem refineLoop_passes_le (c : Graph → Graph) (i : Graph → Except String Graph)
    (f : Graph → FoldOutcome) :
    ∀ fuel s n, (refineLoop c i f fuel s n).passes ≤ n + fuel := by
  intro fuel
  induction fuel with
  | zero => intro s n; simp [refineLoop, LoopResult.passes]
  | succ fuel ih =>
      intro s n
      simp only [refineLoop]
      cases hp : refinePass c i f s with
      | raise k m s1 => simp [LoopResult.passes]
      | ok s1 stop =>
          cases stop with
          | true => simp [LoopResult.passes]
          | false =>
              have := ih s1 (n + 1)
              simp only []
              omega

theorem refinePass_raise_src (c : Graph → Graph) (i : Graph → Except String Graph)
    (f : Graph → FoldOutcome) (s : RState) (k : RaisedKind) (m : String) (s1 : RState)
    (h : refinePass c i f s = PassResult.raise k m s1) :
    (k = RaisedKind.typeError ∧ f s1.loc = FoldOutcome.typeErr m) ∨
    (k = RaisedKind.other ∧ f s1.loc = FoldOutcome.err m) := by
  simp only [refinePass] at h
  split at h
  · split at h <;> cases h
  · rename_i e heq
    cases h
    exact Or.inl ⟨rfl, by simpa [logMsg_loc] using heq⟩
  · rename_i e heq
    cases h
    exact Or.inr ⟨rfl, heq⟩

theorem refineLoop_raised_src (c : Graph → Graph) (i : Graph → Except String Graph)
    (f : Graph → FoldOutcome) :
    ∀ fuel s n k m s1 p, refineLoop c i f fuel s n = LoopResult.raised k m s1 p →
    (k = RaisedKind.typeError ∧ f s1.loc = FoldOutcome.typeErr m) ∨
    (k = RaisedKind.other ∧ f s1.loc = FoldOutcome.err m) := by
  intro fuel
  induction fuel with
  | zero => intro s n k m s1 p h; simp [refineLoop] at h
  | succ fuel ih =>
      intro s n k m s1 p h
      simp only [refineLoop] at h
      cases hp : refinePass c i f s with
      | raise k0 m0 s0 =>
          rw [hp] at h
          cases h
          exact refinePass_raise_src c i f s _ _ _ hp
      | ok s0 stop =>
          rw [hp] at h
          cases stop with
          | true => cases h
          | false => exact ih s0 (n + 1) k m s1 p h

theorem refinePass_stop_of_count_eq (c : Graph → Graph) (i : Graph → Except String Graph)
    (f : Graph → FoldOutcome) (s : RState) (s1 : RState) (b : Bool)
    (hp : refinePass c i f s = PassResult.ok s1 b)
    (hc : s1.loc.nodes.length = s.loc.nodes.length) : b = true := by
  simp only [refinePass] at hp
  split at hp
  · split at hp
    · cases hp; rfl
    · rename_i hne
      cases hp
      exact absurd (by simpa [logMsg_loc] using hc.symm) hne
  · cases hp
  · cases hp

theorem refinePass_state_inplace (c : Graph → Graph) (i : Graph → Except String Graph)
    (f : Graph → FoldOutcome) (s : RState)
    (hfail : ∀ g0, ∃ e, i g0 = Except.error e)
    (ha : s.aliased = true) (ho : s.orig = s.loc) :
    ((refinePass c i f s).state).aliased = true ∧
    ((refinePass c i f s).state).orig = ((refinePass c i f s).state).loc := by
  obtain ⟨e, he⟩ := hfail (c s.loc)
  have hs2 : inferStep i (writeInPlace s (c s.loc)) =
      logMsg (writeInPlace s (c s.loc)) Level.debug
        (("Shape inference could not be performed at this time:\n") ++ e) := by
    simp [inferStep, writeInPlace_loc, he]
  have h2a : (inferStep i (writeInPlace s (c s.loc))).aliased = true := by
    rw [hs2, logMsg_aliased, writeInPlace_aliased, ha]
  have h2o : (inferStep i (writeInPlace s (c s.loc))).orig =
      (inferStep i (writeInPlace s (c s.loc))).loc := by
    rw [hs2, logMsg_orig, logMsg_loc, writeInPlace_loc, writeInPlace_orig_true s _ ha]
  simp only [refinePass]
  split
  · split
    · exact ⟨by simp [PassResult.state, writeInPlace_aliased, h2a],
        by simp [PassResult.state, writeInPlace_loc, writeInPlace_orig_true _ _ h2a]⟩
    · exact ⟨by simp [PassResult.state, logMsg_aliased, writeInPlace_aliased, h2a],
        by simp [PassResult.state, logMsg_orig, logMsg_loc, writeInPlace_loc,
          writeInPlace_orig_true _ _ h2a]⟩
  · exact ⟨by simp [PassResult.state, logMsg_aliased, h2a],
      by simp [PassResult.state, logMsg_orig, logMsg_loc, h2o]⟩
  · exact ⟨by simp [PassResult.state, h2a], by simp [PassResult.state, h2o]⟩

theorem refineLoop_inplace (c : Graph → Graph) (i : Graph → Except String Graph)
    (f : Graph → FoldOutcome) (hfail : ∀ g0, ∃ e, i g0 = Except.error e) :
    ∀ fuel s n, s.aliased = true → s.orig = s.loc →
      (refineLoop c i f fuel s n).origGraph = (refineLoop c i f fuel s n).workGraph := by
  intro fuel
  induction fuel with
  | zero => intro s n ha ho; simpa [refineLoop, LoopResult.origGraph, LoopResult.workGraph] using ho
  | succ fuel ih =>
      intro s n ha ho
      have hps := refinePass_state_inplace c i f s hfail ha ho
      simp only [refineLoop]
      cases hp : refinePass c i f s with
      | raise k m s1 =>
          rw [hp] at hps
          simpa [LoopResult.origGraph, LoopResult.workGraph, PassResult.state] using hps.2
      | ok s1 stop =>
          rw [hp] at hps
          cases stop with
          | true =>
              simpa [LoopResult.origGraph, LoopResult.workGraph, PassResult.state] using hps.2
          | false =>
              exact ih s1 (n + 1) (by simpa [PassResult.state] using hps.1)
                (by simpa [PassResult.state] using hps.2)

/-! ## Claims about iteratively_infer_shapes -/

/-- C3: the refinement loop executes at most 3 passes for every input
graph; when a pass returns with the stop flag (node count unchanged) the
loop ends with that pass; and on a graph already at fixpoint — the first
pass succeeds with the node count equal to the input graph's node count —
exactly one pass is performed. -/
theorem refine_pass_bound_and_fixpoint (c : Graph → Graph)
    (i : Graph → Except String Graph) (f : Graph → FoldOutcome) :
    (∀ g, (iteratively_infer_shapes c i f g).passes ≤ 3) ∧
    (∀ fuel s n s1, refinePass c i f s = PassResult.ok s1 true →
      refineLoop c i f (fuel + 1) s n = LoopResult.done s1 (n + 1)) ∧
    (∀ g s1 b, refinePass c i f (initState g) = PassResult.ok s1 b →
      s1.loc.nodes.length = g.nodes.length →
      (iteratively_infer_shapes c i f g).passes = 1) := by
  refine ⟨?_, ?_, ?_⟩
  · intro g
    simpa using refineLoop_passes_le c i f 3 (initState g) 0
  · intro fuel s n s1 hp
    simp only [refineLoop, hp]
  · intro g s1 b hp hc
    have hb : b = true :=
      refinePass_stop_of_count_eq c i f (initState g) s1 b hp hc
    subst hb
    show (refineLoop c i f (2 + 1) (initState g) 0).passes = 1
    simp only [refineLoop, hp]
    rfl

/-- Witness for `refine_pass_bound_and_fixpoint`: cleanup is the
identity, shape inference always fails, folding returns the graph
unchanged, so the empty graph is at fixpoint. -/
theorem refine_pass_bound_and_fixpoint_witness :
    (iteratively_infer_shapes id (fun _ => Except.error ("x")) (fun g => FoldOutcome.ok g)
        (Graph.mk [] [] [])).passes ≤ 3 ∧
    (iteratively_infer_shapes id (fun _ => Except.error ("x")) (fun g => FoldOutcome.ok g)
        (Graph.mk [] [] [])).passes = 1 :=
  ⟨(refine_pass_bound_and_fixpoint id (fun _ => Except.error ("x"))
      (fun g => FoldOutcome.ok g)).1 (Graph.mk [] [] []),
    (refine_pass_bound_and_fixpoint id (fun _ => Except.error ("x"))
      (fun g => FoldOutcome.ok g)).2.2 (Graph.mk [] [] []) _ true rfl rfl⟩

/-- C4 counterexample: with constant folding failing with an ordinary
(non-TypeError) exception, the exception escapes `iteratively_infer_shapes`
on the first pass instead of being caught: the fatal TypeError is not the
only failure class that surfaces to the caller. -/
theorem refine_ordinary_fold_error_surfaces :
    iteratively_infer_shapes id (fun _ => Except.error ("ie"))
        (fun _ => FoldOutcome.err ("boom")) (Graph.mk [] [] []) =
      LoopResult.raised RaisedKind.other ("boom")
        (RState.mk (Graph.mk [] [] []) (Graph.mk [] [] []) true
          [(Level.debug, ("Performing shape inference & folding.")),
            (Level.debug, ("Shape inference could not be performed at this time:\n") ++ ("ie"))])
        1 := rfl

/-- C4 amended: every exception that escapes the refinement loop comes
from the constant-folding step — a `TypeError` (tagged
`RaisedKind.typeError`) that was logged at error level and re-raised, or
any other folding exception (tagged `RaisedKind.other`) which the
`except TypeError` handler does not catch either; and a folding
`TypeError` makes the pass raise after appending the error-level log
line.  Shape-inference failures never abort the loop. -/
theorem refine_raise_only_from_fold (c : Graph → Graph) (i : Graph → Except String Graph)
    (f : Graph → FoldOutcome) :
    (∀ g k m s p, iteratively_infer_shapes c i f g = LoopResult.raised k m s p →
      (k = RaisedKind.typeError ∧ f s.loc = FoldOutcome.typeErr m) ∨
      (k = RaisedKind.other ∧ f s.loc = FoldOutcome.err m)) ∧
    (∀ s e, f (inferStep i (writeInPlace s (c s.loc))).loc = FoldOutcome.typeErr e →
      refinePass c i f s = PassResult.raise RaisedKind.typeError e
        (logMsg (inferStep i (writeInPlace s (c s.loc))) Level.error (foldTypeErrMsg e))) := by
  constructor
  · intro g k m s p h
    exact refineLoop_raised_src c i f 3 (initState g) 0 k m s p h
  · intro s e hf
    simp only [refinePass, hf]

/-- Witness for `refine_raise_only_from_fold`: folding raises a TypeError
on the empty graph; the pass logs at error level and re-raises. -/
theorem refine_raise_only_from_fold_witness :
    (fun _ : Graph => FoldOutcome.typeErr ("te"))
        (inferStep (fun g => Except.ok g)
          (writeInPlace (initState (Graph.mk [] [] []))
            (id (initState (Graph.mk [] [] [])).loc))).loc =
      FoldOutcome.typeErr ("te") ∧
    refinePass id (fun g => Except.ok g) (fun _ => FoldOutcome.typeErr ("te"))
        (initState (Graph.mk [] [] [])) =
      PassResult.raise RaisedKind.typeError ("te")
        (logMsg
          (inferStep (fun g => Except.ok g)
            (writeInPlace (initState (Graph.mk [] [] []))
              (id (initState (Graph.mk [] [] [])).loc)))
          Level.error (foldTypeErrMsg ("te"))) :=
  ⟨rfl, (refine_raise_only_from_fold id (fun g => Except.ok g)
      (fun _ => FoldOutcome.typeErr ("te"))).2 (initState (Graph.mk [] [] [])) ("te") rfl⟩

/-- C5: when the shape-inference step fails, the failure is caught and
logged at debug level, the working graph, the caller's graph and the
aliasing relation are exactly as they were before the attempt (only the
log grew), and the pass — hence the loop — is not aborted: if folding
then succeeds the pass returns normally. -/
theorem infer_failure_nonfatal (c : Graph → Graph) (i : Graph → Except String Graph)
    (f : Graph → FoldOutcome) (s : RState) (e : String)
    (h : i (c s.loc) = Except.error e) :
    inferStep i (writeInPlace s (c s.loc)) =
      logMsg (writeInPlace s (c s.loc)) Level.debug
        (("Shape inference could not be performed at this time:\n") ++ e) ∧
    (inferStep i (writeInPlace s (c s.loc))).loc = c s.loc ∧
    (inferStep i (writeInPlace s (c s.loc))).orig = (writeInPlace s (c s.loc)).orig ∧
    (inferStep i (writeInPlace s (c s.loc))).aliased = (writeInPlace s (c s.loc)).aliased ∧
    (∀ g1, f (c s.loc) = FoldOutcome.ok g1 →
      ∃ s1 b, refinePass c i f s = PassResult.ok s1 b) := by
  have hs2 : inferStep i (writeInPlace s (c s.loc)) =
      logMsg (writeInPlace s (c s.loc)) Level.debug
        (("Shape inference could not be performed at this time:\n") ++ e) := by
    simp [inferStep, writeInPlace_loc, h]
  have hloc : (inferStep i (writeInPlace s (c s.loc))).loc = c s.loc := by
    rw [hs2, logMsg_loc, writeInPlace_loc]
  refine ⟨hs2, hloc, by rw [hs2, logMsg_orig], by rw [hs2, logMsg_aliased], ?_⟩
  intro g1 hf
  simp only [refinePass, hloc, hf]
  split
  · exact ⟨_, _, rfl⟩
  · exact ⟨_, _, rfl⟩

/-- Witness for `infer_failure_nonfatal`: shape inference always fails
with message `x` on the empty graph, cleanup is the identity. -/
theorem infer_failure_nonfatal_witness :
    (fun _ : Graph => (Except.error ("x") : Except String Graph))
        (id (initState (Graph.mk [] [] [])).loc) = Except.error ("x") ∧
    inferStep (fun _ => Except.error ("x"))
        (writeInPlace (initState (Graph.mk [] [] []))
          (id (initState (Graph.mk [] [] [])).loc)) =
      logMsg
        (writeInPlace (initState (Graph.mk [] [] []))
          (id (initState (Graph.mk [] [] [])).loc))
        Level.debug
        (("Shape inference could not be performed at this time:\n") ++ ("x")) :=
  ⟨rfl, (infer_failure_nonfatal id (fun _ => Except.error ("x")) (fun g => FoldOutcome.ok g)
      (initState (Graph.mk [] [] [])) ("x") rfl).1⟩

/-- C6 counterexample: a run in which shape inference succeeds once and
folding then rewrites the (rebound) working graph: the function — which
is annotated `-> None` and returns no value — finishes with the caller's
graph object still holding node `A` while the refined working graph holds
node `B`; the refined graph is not returned to the caller. -/
theorem refine_result_not_returned :
    iteratively_infer_shapes id (fun g => Except.ok g)
        (fun g => FoldOutcome.ok (Graph.mk [Node.mk ("B") ("b") [] []] g.inputs g.outputs))
        (Graph.mk [Node.mk ("A") ("a") [] []] [] []) =
      LoopResult.done
        (RState.mk (Graph.mk [Node.mk ("B") ("b") [] []] [] [])
          (Graph.mk [Node.mk ("A") ("a") [] []] [] []) false
          [(Level.debug, ("Performing shape inference & folding."))])
        1 ∧
    (Graph.mk [Node.mk ("A") ("a") [] []] [] []) ≠ (Graph.mk [Node.mk ("B") ("b") [] []] [] []) :=
  ⟨rfl, by decide⟩

/-- C6 amended: `iteratively_infer_shapes` returns `None`, not the graph;
the caller observes the refinement only through in-place mutation of its
own graph object, which carries the full result of the passes exactly in
runs where no shape-inference reimport succeeds (the reimport rebinds the
local variable away from the caller's object). -/
theorem refine_inplace_when_infer_fails (c : Graph → Graph) (i : Graph → Except String Graph)
    (f : Graph → FoldOutcome) (g : Graph)
    (h : ∀ g0, ∃ e, i g0 = Except.error e) :
    (iteratively_infer_shapes c i f g).origGraph =
      (iteratively_infer_shapes c i f g).workGraph :=
  refineLoop_inplace c i f h 3 (initState g) 0 rfl rfl

/-- Witness for `refine_inplace_when_infer_fails`: shape inference always
fails, folding is the identity, input is the empty graph. -/
theorem refine_inplace_when_infer_fails_witness :
    (∀ g0 : Graph,
      ∃ e, (fun _ : Graph => (Except.error ("x") : Except String Graph)) g0 = Except.error e) ∧
    (iteratively_infer_shapes id (fun _ => Except.error ("x")) (fun g => FoldOutcome.ok g)
        (Graph.mk [] [] [])).origGraph =
      (iteratively_infer_shapes id (fun _ => Except.error ("x")) (fun g => FoldOutcome.ok g)
        (Graph.mk [] [] [])).workGraph :=
  ⟨fun g0 => ⟨("x"), rfl⟩,
    refine_inplace_when_infer_fails id (fun _ => Except.error ("x")) (fun g => FoldOutcome.ok g)
      (Graph.mk [] [] []) (fun g0 => ⟨("x"), rfl⟩)⟩

/-- C9: a successful shape-inference reimport rebinds only the local
working-graph variable — the caller's graph state and the log are
untouched and the aliasing is severed — and from any unaliased state the
rest of the loop (cleanup, toposort, folding, in this and later passes)
never changes the caller's graph object again. -/
theorem infer_rebind_frame (c : Graph → Graph) (i : Graph → Except String Graph)
    (f : Graph → FoldOutcome) :
    (∀ s g, i s.loc = Except.ok g →
      inferStep i s = { s with loc := g, aliased := false }) ∧
    (∀ fuel s n, s.aliased = false →
      (refineLoop c i f fuel s n).origGraph = s.orig) := by
  constructor
  · intro s g h
    simp [inferStep, h]
  · exact refineLoop_origGraph_unaliased c i f

/-- Witness for `infer_rebind_frame`: the reimport returns the empty
graph while the caller's object holds node `A`. -/
theorem infer_rebind_frame_witness :
    (fun _ : Graph => (Except.ok (Graph.mk [] [] []) : Except String Graph))
        (initState (Graph.mk [Node.mk ("A") ("a") [] []] [] [])).loc =
      Except.ok (Graph.mk [] [] []) ∧
    inferStep (fun _ => Except.ok (Graph.mk [] [] []))
        (initState (Graph.mk [Node.mk ("A") ("a") [] []] [] [])) =
      { initState (Graph.mk [Node.mk ("A") ("a") [] []] [] []) with
          loc := Graph.mk [] [] [], aliased := false } :=
  ⟨rfl,
    (infer_rebind_frame id (fun _ => Except.ok (Graph.mk [] [] []))
      (fun g => FoldOutcome.ok g)).1
      (initState (Graph.mk [Node.mk ("A") ("a") [] []] [] [])) (Graph.mk [] [] []) rfl⟩
